import Mathlib

/-!
# TheaterShowings — verification of the aggregation core

A shallow embedding of the showtime-aggregation core of the TheaterShowings
repository: the aggregator (`src/scrapers/index.ts`), the preference matcher
(`src/lib/matcher.ts`), the date/time normalization helpers of the five
source adapters (`src/scrapers/filmforum.ts`, `src/scrapers/ifc.ts`,
`src/scrapers/lowcinema.ts`, and the Metrograph and BAM adapters), and the
identifier construction shared by the adapters.

Modelling conventions:
* JavaScript strings are Lean `String`s; `String.prototype.toLowerCase`,
  `split`, `includes`, `padStart` and `parseInt` are re-implemented below on
  `List Char` so that everything reduces in the kernel.  All strings the
  adapters produce are ASCII, for which `Char.toLower` agrees with the JS
  behaviour.
* `localeCompare` on the ASCII date and time keys produced by the code is
  modelled as code-point lexicographic comparison (`charListLt`), which is
  what the default collation does on strings made of digits, `:`, `-` and
  Latin letters in distinct classes.
* JS `Date` values (always at local midnight in the scrapers) are modelled
  as civil `(year, month, day)` triples together with their day number
  (`daysFromCivil`, the standard days-from-civil algorithm); adding a day to
  a `Date` is adding `1` to the day number.
* `Array.prototype.sort` with a comparator is a stable sort; since a stable
  sorted permutation is unique for a total preorder it is modelled by
  `List.insertionSort` with the comparator's `≤`.
* `Promise.allSettled` delivers one settled outcome per adapter, modelled as
  `Except String (List Showtime)` (rejection reason or fulfilled value).
-/

/-! ## JS string primitives -/

/-- Code-point lexicographic `<` on char lists: the order `localeCompare`
induces on the ASCII keys compared by the aggregator's sort. -/
def charListLt : List Char → List Char → Bool
  | [], [] => false
  | [], _ :: _ => true
  | _ :: _, [] => false
  | a :: as, b :: bs =>
    if a.toNat < b.toNat then true
    else if b.toNat < a.toNat then false
    else charListLt as bs

/-- `a < b` on strings, as `localeCompare(a, b) < 0`. -/
def strLt (a b : String) : Bool := charListLt a.data b.data

/-- `a ≤ b` on strings, as `localeCompare(a, b) ≤ 0`. -/
def strLe (a b : String) : Bool := !charListLt b.data a.data

theorem charListLt_irrefl : ∀ l, charListLt l l = false := by
  intro l
  induction l with
  | nil => rfl
  | cons a as ih => simp [charListLt, ih]

theorem charListLt_asymm :
    ∀ l₁ l₂, charListLt l₁ l₂ = true → charListLt l₂ l₁ = false := by
  intro l₁
  induction l₁ with
  | nil =>
    intro l₂ h
    cases l₂ with
    | nil => simp [charListLt] at h
    | cons b bs => rfl
  | cons a as ih =>
    intro l₂ h
    cases l₂ with
    | nil => simp [charListLt] at h
    | cons b bs =>
      simp only [charListLt] at h ⊢
      by_cases hab : a.toNat < b.toNat
      · simp [hab, show ¬ b.toNat < a.toNat by omega]
      · by_cases hba : b.toNat < a.toNat
        · simp [hab, hba] at h
        · simp only [hab, if_false, hba, if_false] at h ⊢
          exact ih bs h

theorem charListLt_trans :
    ∀ l₁ l₂ l₃, charListLt l₁ l₂ = true → charListLt l₂ l₃ = true →
      charListLt l₁ l₃ = true := by
  intro l₁
  induction l₁ with
  | nil =>
    intro l₂ l₃ h₁ h₂
    cases l₂ with
    | nil => simp [charListLt] at h₁
    | cons b bs =>
      cases l₃ with
      | nil => simp [charListLt] at h₂
      | cons c cs => rfl
  | cons a as ih =>
    intro l₂ l₃ h₁ h₂
    cases l₂ with
    | nil => simp [charListLt] at h₁
    | cons b bs =>
      cases l₃ with
      | nil => simp [charListLt] at h₂
      | cons c cs =>
        simp only [charListLt] at h₁ h₂ ⊢
        by_cases hab : a.toNat < b.toNat
        · by_cases hbc : b.toNat < c.toNat
          · simp [show a.toNat < c.toNat by omega]
          · by_cases hcb : c.toNat < b.toNat
            · simp [hbc, hcb] at h₂
            · simp [show a.toNat < c.toNat by omega]
        · by_cases hba : b.toNat < a.toNat
          · simp [hab, hba] at h₁
          · have hab' : a.toNat = b.toNat := by omega
            by_cases hbc : b.toNat < c.toNat
            · simp [show a.toNat < c.toNat by omega]
            · by_cases hcb : c.toNat < b.toNat
              · simp [hbc, hcb] at h₂
              · have hbc' : b.toNat = c.toNat := by omega
                simp only [hab, if_false, hba, if_false] at h₁
                simp only [hbc, if_false, hcb, if_false] at h₂
                simp [show ¬ a.toNat < c.toNat by omega,
                  show ¬ c.toNat < a.toNat by omega, ih bs cs h₁ h₂]

theorem charListLt_not_trans :
    ∀ l₁ l₂ l₃, charListLt l₁ l₂ = false → charListLt l₂ l₃ = false →
      charListLt l₁ l₃ = false := by
  intro l₁
  induction l₁ with
  | nil =>
    intro l₂ l₃ h₁ h₂
    cases l₂ with
    | nil =>
      cases l₃ with
      | nil => rfl
      | cons c cs => simp [charListLt] at h₂
    | cons b bs => simp [charListLt] at h₁
  | cons a as ih =>
    intro l₂ l₃ h₁ h₂
    cases l₂ with
    | nil =>
      cases l₃ with
      | nil => rfl
      | cons c cs => simp [charListLt] at h₂
    | cons b bs =>
      cases l₃ with
      | nil => rfl
      | cons c cs =>
        simp only [charListLt] at h₁ h₂ ⊢
        by_cases hab : a.toNat < b.toNat
        · simp [hab] at h₁
        · by_cases hbc : b.toNat < c.toNat
          · simp [hbc] at h₂
          · by_cases hac : a.toNat < c.toNat
            · omega
            · by_cases hca : c.toNat < a.toNat
              · simp [hac, hca]
              · have : b.toNat = c.toNat := by omega
                have : a.toNat = b.toNat := by omega
                simp only [hab, if_false, show ¬ b.toNat < a.toNat by omega,
                  if_false] at h₁
                simp only [hbc, if_false, show ¬ c.toNat < b.toNat by omega,
                  if_false] at h₂
                simp [hac, hca, ih bs cs h₁ h₂]

theorem charListLt_eq_of_not :
    ∀ l₁ l₂, charListLt l₁ l₂ = false → charListLt l₂ l₁ = false → l₁ = l₂ := by
  intro l₁
  induction l₁ with
  | nil =>
    intro l₂ h₁ h₂
    cases l₂ with
    | nil => rfl
    | cons b bs => exact absurd h₁ (by simp [charListLt])
  | cons a as ih =>
    intro l₂ h₁ h₂
    cases l₂ with
    | nil => exact absurd h₂ (by simp [charListLt])
    | cons b bs =>
      simp only [charListLt] at h₁ h₂
      by_cases hab : a.toNat < b.toNat
      · simp [hab] at h₁
      · by_cases hba : b.toNat < a.toNat
        · simp [hba, hab] at h₂
        · simp only [hab, if_false, hba, if_false] at h₁ h₂
          have hv : a = b := by
            apply Char.ext
            apply UInt32.toNat.inj
            have ha : a.val.toNat = a.toNat := rfl
            have hb : b.val.toNat = b.toNat := rfl
            omega
          rw [hv, ih bs h₁ h₂]

theorem strLt_irrefl (x : String) : strLt x x = false := charListLt_irrefl _

theorem strLt_asymm {x y : String} (h : strLt x y = true) : strLt y x = false :=
  charListLt_asymm _ _ h

theorem strLt_trans {x y z : String} (h₁ : strLt x y = true) (h₂ : strLt y z = true) :
    strLt x z = true := charListLt_trans _ _ _ h₁ h₂

theorem strLe_trans {x y z : String} (h₁ : strLe x y = true) (h₂ : strLe y z = true) :
    strLe x z = true := by
  simp only [strLe, Bool.not_eq_true'] at h₁ h₂ ⊢
  exact charListLt_not_trans _ _ _ h₂ h₁

theorem strEq_of_not_lt {x y : String} (h₁ : strLt x y = false) (h₂ : strLt y x = false) :
    x = y := by
  have h := charListLt_eq_of_not _ _ h₁ h₂
  calc x = String.mk x.data := rfl
    _ = String.mk y.data := by rw [h]
    _ = y := rfl

/-- One JS `split(sep)` step on char lists: splits at every single
occurrence of `sep` (adjacent separators produce empty fields, as in JS). -/
def splitOnCharList (sep : Char) : List Char → List (List Char)
  | [] => [[]]
  | c :: rest =>
    let r := splitOnCharList sep rest
    if c = sep then [] :: r
    else
      match r with
      | [] => [[c]]
      | h :: t => (c :: h) :: t

/-- JS `parseInt(s, 10)` restricted to the inputs the scrapers feed it:
the value of the leading run of ASCII digits, `none` for `NaN`. -/
def jsParseInt (l : List Char) : Option Nat :=
  let ds := l.takeWhile Char.isDigit
  if ds.isEmpty then none
  else some (ds.foldl (fun n c => n * 10 + (c.toNat - 48)) 0)

/-- JS `padStart(2, '0')`. -/
def padStart2 (l : List Char) : List Char :=
  if l.length ≥ 2 then l else List.replicate (2 - l.length) '0' ++ l

/-- JS `toLowerCase()` on the ASCII strings the scrapers handle. -/
def jsToLower (s : String) : String := String.mk (s.data.map Char.toLower)

/-- JS `toUpperCase()` on the ASCII strings the scrapers handle. -/
def jsToUpper (s : String) : String := String.mk (s.data.map Char.toUpper)

/-- Helper for `jsIncludes`: does `needle` occur contiguously in the list? -/
def hasSubstrAux (needle : List Char) : List Char → Bool
  | [] => needle.isEmpty
  | c :: rest => needle.isPrefixOf (c :: rest) || hasSubstrAux needle rest

/-- JS `hay.includes(needle)`. -/
def jsIncludes (hay needle : String) : Bool :=
  hasSubstrAux needle.data hay.data

/-! ## The Event record (`src/types/showtime.ts`, `Showtime`)

Fields not consumed by the aggregation/matching core (`popularity`,
`ticketsAvailable`, `totalCapacity`, `allTimes`) are omitted. -/

structure Showtime where
  id : String
  film : String
  theater : String
  date : String
  time : String
  ticketUrl : String
  imageUrl : Option String := none
  description : Option String := none
  deriving DecidableEq, Repr

/-! ## Aggregator (`src/scrapers/index.ts`) -/

/-- `convertTo24Hour` from `src/scrapers/index.ts` lines 59–72, including its
behaviour on inputs with no `' '` or no `':'` (JS destructuring yields
`undefined`, and `${undefined}` renders as the string `"undefined"`). -/
def convertTo24Hour (time12h : String) : String :=
  let parts := splitOnCharList ' ' time12h.data
  let time := parts.headD []
  let modifier := parts[1]?
  let hm := splitOnCharList ':' time
  let hours0 := hm.headD []
  let minutes := hm[1]?
  let hours1 := if hours0 = ['1', '2'] then ['0', '0'] else hours0
  let hours2 :=
    if modifier = some ['P', 'M'] then
      match jsParseInt hours1 with
      | some n => (Nat.repr (n + 12)).data
      | none => ['N', 'a', 'N']
    else hours1
  String.mk (padStart2 hours2 ++ [':'] ++ minutes.getD "undefined".data)

/-- The aggregator's comparator, as a `≤` test: `a` precedes-or-ties `b`
iff the comparator of `src/scrapers/index.ts` lines 43–51 returns `≤ 0`
(date `localeCompare` first, then the 24-hour conversions). -/
def showtimeLE (a b : Showtime) : Bool :=
  if a.date = b.date then strLe (convertTo24Hour a.time) (convertTo24Hour b.time)
  else strLt a.date b.date

/-- The comparator as a relation, for `List.insertionSort`. -/
def sortRel (a b : Showtime) : Prop := showtimeLE a b = true

instance : DecidableRel sortRel := fun a b => instDecidableEqBool (showtimeLE a b) true

instance : IsTotal Showtime sortRel := by
  constructor
  intro a b
  simp only [sortRel, showtimeLE]
  by_cases hd : a.date = b.date
  · rw [if_pos hd, if_pos hd.symm]
    by_cases h : charListLt (convertTo24Hour b.time).data (convertTo24Hour a.time).data = true
    · right
      have := charListLt_asymm _ _ h
      simp [strLe, this]
    · left
      simp only [Bool.not_eq_true] at h
      simp [strLe, h]
  · rw [if_neg hd, if_neg (fun h => hd h.symm)]
    by_cases h : strLt a.date b.date = true
    · exact Or.inl h
    · right
      simp only [Bool.not_eq_true] at h
      by_cases h' : strLt b.date a.date = true
      · exact h'
      · simp only [Bool.not_eq_true] at h'
        exact absurd (strEq_of_not_lt h h') hd

instance : IsTrans Showtime sortRel := by
  constructor
  intro a b c hab hbc
  simp only [sortRel, showtimeLE] at hab hbc ⊢
  by_cases h₁ : a.date = b.date
  · rw [if_pos h₁] at hab
    by_cases h₂ : b.date = c.date
    · rw [if_pos h₂] at hbc
      rw [if_pos (h₁.trans h₂)]
      exact strLe_trans hab hbc
    · rw [if_neg h₂] at hbc
      have h₃ : ¬ a.date = c.date := fun h => by
        rw [h₁.symm.trans h] at hbc
        simp [strLt_irrefl] at hbc
      rw [if_neg h₃, h₁]
      exact hbc
  · rw [if_neg h₁] at hab
    by_cases h₂ : b.date = c.date
    · rw [if_pos h₂] at hbc
      have h₃ : ¬ a.date = c.date := fun h => h₁ (h.trans h₂.symm)
      rw [if_neg h₃, ← h₂]
      exact hab
    · rw [if_neg h₂] at hbc
      have hac : strLt a.date c.date = true := strLt_trans hab hbc
      have h₃ : ¬ a.date = c.date := fun h => by
        rw [h] at hac
        simp [strLt_irrefl] at hac
      rw [if_neg h₃]
      exact hac

/-- The fulfilled adapter results, concatenated in adapter order
(`src/scrapers/index.ts` lines 29–40: `allShowtimes.push(...result.value)`
for each fulfilled result, rejected results only logged). -/
def collectFulfilled (results : List (Except String (List Showtime))) : List Showtime :=
  (results.filterMap fun r =>
    match r with
    | .ok v => some v
    | .error _ => none).flatten

/-- `getAllShowtimes` from `src/scrapers/index.ts` lines 18–54, as a function
of the settled outcomes `Promise.allSettled` delivers: collect the fulfilled
results and stable-sort them by the date/time comparator. -/
def getAllShowtimes (results : List (Except String (List Showtime))) : List Showtime :=
  List.insertionSort sortRel (collectFulfilled results)

/-! ## Preference matcher (`src/lib/matcher.ts`) -/

/-- The Prisma `PreferenceType` enum consumed by the matcher's `switch`
(`'film' | 'director' | 'actor'`); the `default` branch of the `switch` is
unreachable for these values. -/
inductive PreferenceType where
  | film
  | director
  | actor
  deriving DecidableEq, Repr

/-- A subscriber preference: a typed kind plus free-text value. -/
structure Preference where
  type : PreferenceType
  value : String
  deriving DecidableEq, Repr

/-- `matchShowtime` from `src/lib/matcher.ts` lines 14–37: lower-case the
film title and the (possibly absent) description, and filter the preference
list by the per-kind substring rule; `director` is checked against
`` `${filmLower} ${descLower}` ``. -/
def matchShowtime (showtime : Showtime) (preferences : List Preference) :
    List Preference :=
  let filmLower := jsToLower showtime.film
  let descLower := jsToLower (showtime.description.getD "")
  let combined := filmLower ++ " " ++ descLower
  preferences.filter fun pref =>
    let valueLower := jsToLower pref.value
    match pref.type with
    | .film => jsIncludes filmLower valueLower
    | .director => jsIncludes combined valueLower
    | .actor => jsIncludes descLower valueLower

/-- A matched event: `MatchedShowtime` from `src/lib/matcher.ts`. -/
structure MatchedShowtime where
  showtime : Showtime
  matchedPreferences : List Preference
  deriving DecidableEq, Repr

/-- `findMatches` from `src/lib/matcher.ts` lines 47–61. -/
def findMatches (showtimes : List Showtime) (preferences : List Preference) :
    List MatchedShowtime :=
  showtimes.filterMap fun showtime =>
    let matched := matchShowtime showtime preferences
    if matched.length > 0 then some ⟨showtime, matched⟩ else none

/-! ## Identifier construction

Every adapter builds ids with the same chain
`` `...-${film}-${date}-${time}` ``
`.replace(/\s+/g, '-').replace(/[^a-z0-9-]/gi, '').toLowerCase()``
(Metrograph `src/unnamed/part_005` lines 127–131, IFC
`src/scrapers/ifc.ts` lines 78–81, Low Cinema `src/scrapers/lowcinema.ts`
lines 247–250, Film Forum `src/scrapers/filmforum.ts` lines 240, 278 and
339).  Two templates omit the `${time}` component: BAM's
(`src/unnamed/part_007` line 89) and Film Forum's detail-page strategy's
(`src/scrapers/filmforum.ts` line 438). -/

/-- `.replace(/\s+/g, '-')`: each maximal whitespace run becomes one `'-'`.
The `Bool` argument records whether the previous character was whitespace. -/
def collapseWsAux : Bool → List Char → List Char
  | _, [] => []
  | prevWs, c :: rest =>
    if c.isWhitespace then
      (if prevWs then [] else ['-']) ++ collapseWsAux true rest
    else c :: collapseWsAux false rest

/-- Is the character kept by `.replace(/[^a-z0-9-]/gi, '')`? -/
def isIdChar (c : Char) : Bool := c.isAlpha || c.isDigit || c = '-'

/-- The shared id sanitizer: whitespace runs to hyphens, then strip
everything that is not an ASCII letter, digit or hyphen, then lower-case. -/
def sanitizeId (s : String) : String :=
  String.mk (((collapseWsAux false s.data).filter isIdChar).map Char.toLower)

/-- The id built for a Metrograph showing (`src/unnamed/part_005` lines
127–131). -/
def metrographShowtimeId (film date time : String) : String :=
  sanitizeId ("metrograph-" ++ film ++ "-" ++ date ++ "-" ++ time)

/-- The id built for a BAM showing (`src/unnamed/part_007` line 89): the
template is `` `bam-${film}-${date}` `` — no time component. -/
def bamShowtimeId (film date : String) : String :=
  sanitizeId ("bam-" ++ film ++ "-" ++ date)

/-- The id built for an IFC showing (`src/scrapers/ifc.ts` lines 78–81). -/
def ifcShowtimeId (film date time : String) : String :=
  sanitizeId ("ifc-" ++ film ++ "-" ++ date ++ "-" ++ time)

/-- The id built for a Low Cinema showing (`src/scrapers/lowcinema.ts`
lines 247–250). -/
def lowCinemaShowtimeId (film date time : String) : String :=
  sanitizeId ("lowcinema-" ++ film ++ "-" ++ date ++ "-" ++ time)

/-- The id built for a Film Forum showing by the homepage week-schedule and
index-page strategies (`src/scrapers/filmforum.ts` lines 240, 278 and 339):
template `` `filmforum-${film}-${date}-${time}` ``. -/
def filmForumShowtimeId (film date time : String) : String :=
  sanitizeId ("filmforum-" ++ film ++ "-" ++ date ++ "-" ++ time)

/-- The id built for a Film Forum event by the detail-page strategy
(`scrapeFilmPage`, `src/scrapers/filmforum.ts` line 438): the template is
`` `filmforum-${film}-${date}` `` — like BAM's, it has no time component
(these are the `"See Times"` events). -/
def filmForumDetailId (film date : String) : String :=
  sanitizeId ("filmforum-" ++ film ++ "-" ++ date)

/-! ## Dates

JS `Date`s in the scrapers are always set to local midnight; they are
modelled as civil `(year, month, day)` triples (1-based month).  Comparison
and day arithmetic go through the day number `daysFromCivil` (days since
1970-01-01, the standard days-from-civil algorithm, valid for the positive
years the scrapers handle). -/

structure CivilDate where
  y : Nat
  m : Nat
  d : Nat
  deriving DecidableEq, Repr

/-- Days since 1970-01-01 of a civil date (years ≥ 400; all dates the
scrapers manipulate are in 2025–2027). -/
def daysFromCivil (y m d : Nat) : Nat :=
  let y' := if m ≤ 2 then y - 1 else y
  let era := y' / 400
  let yoe := y' % 400
  let mp := (m + 9) % 12
  let doy := (153 * mp + 2) / 5 + d - 1
  let doe := yoe * 365 + yoe / 4 - yoe / 100 + doy
  era * 146097 + doe - 719468

/-- Day number of a `CivilDate`. -/
def CivilDate.days (c : CivilDate) : Nat := daysFromCivil c.y c.m c.d

/-- Two-digit padding of a number's decimal representation
(`String(n).padStart(2, '0')`). -/
def pad2 (n : Nat) : String := String.mk (padStart2 (Nat.repr n).data)

/-- `` `${year}-${mm}-${dd}` `` — the `formatISO` helpers of the adapters. -/
def formatISO (y m d : Nat) : String :=
  Nat.repr y ++ "-" ++ pad2 m ++ "-" ++ pad2 d

/-! ### Film Forum date resolution (`src/scrapers/filmforum.ts`) -/

/-- The year-inference core of `extractDatesFromText`
(`src/scrapers/filmforum.ts` lines 508–532), applied to one regex match:
month and day-of-month from the match, the optional explicit year, and the
current date.  When no year is written and the candidate date (at the
current year) lies more than 30 days in the past
(`candidate.getTime() < now.getTime() - PAST_DATE_THRESHOLD_MS`), the year
rolls forward by one. -/
def extractDateResolve (today : CivilDate) (month day : Nat) (yearStr : Option Nat) :
    CivilDate :=
  let year := yearStr.getD today.y
  if yearStr = none ∧ daysFromCivil year month day + 30 < today.days then
    ⟨year + 1, month, day⟩
  else
    ⟨year, month, day⟩

/-- `fillDateRange` from `src/scrapers/filmforum.ts` lines 534–547, on day
numbers: every day from `start` to `end` inclusive, with the end clipped to
`today + 14` (`twoWeeksOut`). -/
def fillDateRange (today start e : Nat) : List Nat :=
  (List.range (min e (today + 14) + 1 - start)).map (fun i => start + i)

/-- The two-date branch of `parseDateRange` (`src/scrapers/filmforum.ts`
line 505): `fillDateRange(start >= today ? start : today, end)`. -/
def parseDateRangePair (today start e : Nat) : List Nat :=
  fillDateRange today (max start today) e

/-! ### IFC date resolution (`src/scrapers/ifc.ts`) -/

/-- The year inference of `parseDateHeader` (`src/scrapers/ifc.ts` lines
127–141): a December date seen in January or February belongs to the
previous year; otherwise, assume the current year and roll forward one year
when the candidate lies more than 30 days in the past. -/
def parseDateHeaderResolve (today : CivilDate) (month day : Nat) : CivilDate :=
  if month = 12 ∧ (today.m = 1 ∨ today.m = 2) then
    ⟨today.y - 1, 12, day⟩
  else if daysFromCivil today.y month day + 30 < today.days then
    ⟨today.y + 1, month, day⟩
  else
    ⟨today.y, month, day⟩

/-! ### BAM horizon filter (`src/unnamed/part_007`) -/

/-- The date filter of `scrapeBAM` (`src/unnamed/part_007` lines 80–86):
`if (dateObj < today || dateObj > twoWeeksOut) continue;` — only days in
`[today, today + 14]` produce events. -/
def bamKeptDates (today : Nat) (dates : List Nat) : List Nat :=
  dates.filter fun d => !(decide (d < today) || decide (d > today + 14))

/-! ## Metrograph adapter fragment (`src/unnamed/part_005`) -/

/-- The month lookup `MONTH_MAP[monthStr.toLowerCase().slice(0, 3)]`
from `src/unnamed/part_005` lines 19–35, as the month number `1..12`. -/
def monthMapNum (s : String) : Option Nat :=
  match String.mk ((jsToLower s).data.take 3) with
  | "jan" => some 1
  | "feb" => some 2
  | "mar" => some 3
  | "apr" => some 4
  | "may" => some 5
  | "jun" => some 6
  | "jul" => some 7
  | "aug" => some 8
  | "sep" => some 9
  | "oct" => some 10
  | "nov" => some 11
  | "dec" => some 12
  | _ => none

/-- `parseMetrographDate` (`src/unnamed/part_005` lines 29–48), given the
regex capture groups (month word, day-of-month).  `now.getMonth()` is
0-based, so the JS guard `monthNum < now.getMonth() - 1` is
`month < today.m - 2` on 1-based months (with JS negative values on the
right matched by `Nat` truncation, both sides never firing for
`today.m ≤ 2`).  There is no horizon clipping. -/
def parseMetrographDate (today : CivilDate) (monthStr : String) (day : Nat) :
    Option String :=
  match monthMapNum monthStr with
  | none => none
  | some month =>
    let year := if month < today.m - 2 then today.y + 1 else today.y
    some (formatISO year month day)

/-- A child of the Metrograph `div.showtimes` container, in document order:
a date header (`h5.sr-only` / `h6`, given as its regex capture groups) or a
`div.film_day` block of time links (each given as the capture groups of
`/(\d{1,2}:\d{2})\s*(am|pm)/i`). -/
inductive MetroChild where
  | dateHeader (monthStr : String) (day : Nat)
  | filmDay (times : List (String × String))
  deriving DecidableEq, Repr

/-- The showtime-extraction loop of `scrapeMetrograph`
(`src/unnamed/part_005` lines 96–146): walk the children keeping the last
parsed date header as `currentDate`; emit one event per time link of each
`div.film_day` seen while `currentDate` is non-null.  No date filtering is
applied before pushing. -/
def metrographEventsAux (today : CivilDate) (film filmUrl : String)
    (descr : Option String) : Option String → List MetroChild → List Showtime
  | _, [] => []
  | _, .dateHeader monthStr day :: rest =>
    metrographEventsAux today film filmUrl descr
      (parseMetrographDate today monthStr day) rest
  | cur, .filmDay times :: rest =>
    (match cur with
     | some d =>
       times.map fun (hm, ap) =>
         let time := hm ++ " " ++ jsToUpper ap
         { id := metrographShowtimeId film d time
           film := film
           theater := "Metrograph"
           date := d
           time := time
           ticketUrl := filmUrl
           description := descr }
     | none => []) ++ metrographEventsAux today film filmUrl descr cur rest

/-! ## Bare-time inference (`src/scrapers/filmforum.ts`) -/

/-- `convertTo12Hour` (`src/scrapers/filmforum.ts` lines 450–454). -/
def convertTo12Hour (h24 : Nat) (min : String) : String :=
  let period := if h24 ≥ 12 then "PM" else "AM"
  let h12 := if h24 = 0 then 12 else if h24 > 12 then h24 - 12 else h24
  Nat.repr h12 ++ ":" ++ min ++ " " ++ period

/-- The bare-time branch of `extractTimesFromText`
(`src/scrapers/filmforum.ts` lines 470–478), applied to one `HH:MM` match
with no AM/PM marker: hours outside `CINEMA_OPENING_HOUR = 9` ..
`CINEMA_CLOSING_HOUR = 23` are skipped (`continue`); the rest go through
`convertTo12Hour`. -/
def resolveBareTime (h : Nat) (min : String) : Option String :=
  if h < 9 ∨ h > 23 then none else some (convertTo12Hour h min)

/-! ## Director-prefixed descriptions -/

/-- JS truthiness of a `string | undefined` value. -/
def jsTruthy : Option String → Bool
  | none => false
  | some "" => false
  | some _ => true

/-- The description assembled for a Metrograph event (`src/unnamed/part_005`
lines 140–142):
`` director ? `${director}${description ? ' — ' + description : ''}` : description ``. -/
def metrographDescription (director description : Option String) : Option String :=
  if jsTruthy director then
    some ((director.getD "") ++
      (if jsTruthy description then " — " ++ description.getD "" else ""))
  else description

/-- The identical description construction of `scrapeLowCinema`
(`src/scrapers/lowcinema.ts` lines 256–259). -/
def lowCinemaDescription (director description : Option String) : Option String :=
  if jsTruthy director then
    some ((director.getD "") ++
      (if jsTruthy description then " — " ++ description.getD "" else ""))
  else description

/-! ## Adapter failure handling (`src/scrapers/lowcinema.ts`) -/

/-- The outcome of `fetch` as the adapters observe it: a thrown
error / rejected promise, or a response with its `ok` flag and body. -/
inductive FetchResult (α : Type) where
  | thrown (msg : String)
  | response (ok : Bool) (body : α)

/-- The control-flow skeleton shared by every adapter
(`src/scrapers/lowcinema.ts` lines 148–161 and 273–276): the whole body sits
in one `try`; a non-`ok` response returns `[]`; any exception thrown while
parsing (modelled as `parse` returning `Except.error`) is caught and also
yields `[]`. -/
def adapterGuard {α : Type} (parse : α → Except String (List Showtime)) :
    FetchResult α → List Showtime
  | .thrown _ => []
  | .response ok body =>
    if ok then
      match parse body with
      | .ok events => events
      | .error _ => []
    else []

/-! ## Claims -/

/-- **C1.** For every combination of settled adapter outcomes — any subset
of the five sources failing with a network error, non-success status, parse
exception or promise rejection — `getAllShowtimes` is a total function (it
never raises) whose result is a permutation of the concatenation of the
fulfilled adapters' event lists, hence contains exactly the events of every
adapter that succeeded and never fewer than their sum; and the adapter
skeleton itself maps a thrown fetch, a non-`ok` response and a parse
exception to the empty list, and a successful parse to its events. -/
theorem c1_aggregator_partial_failure :
    (∀ results : List (Except String (List Showtime)),
      (getAllShowtimes results).Perm (collectFulfilled results) ∧
      (getAllShowtimes results).length =
        ((results.filterMap fun r =>
          match r with
          | .ok v => some v
          | .error _ => none).map List.length).sum) ∧
    (∀ (α : Type) (parse : α → Except String (List Showtime)) (msg : String),
      adapterGuard parse (.thrown msg) = []) ∧
    (∀ (α : Type) (parse : α → Except String (List Showtime)) (body : α),
      adapterGuard parse (.response false body) = []) ∧
    (∀ (α : Type) (parse : α → Except String (List Showtime)) (body : α)
      (err : String), parse body = .error err →
      adapterGuard parse (.response true body) = []) ∧
    (∀ (α : Type) (parse : α → Except String (List Showtime)) (body : α)
      (events : List Showtime), parse body = .ok events →
      adapterGuard parse (.response true body) = events) := by
  refine ⟨fun results => ⟨?_, ?_⟩, fun α parse msg => rfl, fun α parse body => rfl,
    fun α parse body err h => ?_, fun α parse body events h => ?_⟩
  · exact List.perm_insertionSort sortRel _
  · rw [show getAllShowtimes results = List.insertionSort sortRel (collectFulfilled results)
      from rfl, List.length_insertionSort]
    exact List.length_flatten _
  · simp [adapterGuard, h]
  · simp [adapterGuard, h]

/-- Witness for C1 at concrete inputs: a concrete settled-outcome list, and
a parse failure on a trivial document type. -/
theorem c1_aggregator_partial_failure_witness :
    (getAllShowtimes [Except.error "HTTP 500", Except.ok
        [⟨"a", "F", "Film Forum", "2026-02-17", "7:00 PM", "u", none, none⟩]]).Perm
      (collectFulfilled [Except.error "HTTP 500", Except.ok
        [⟨"a", "F", "Film Forum", "2026-02-17", "7:00 PM", "u", none, none⟩]]) ∧
    adapterGuard (fun _ : Unit => Except.error "parse exception")
      (FetchResult.response true ()) = [] :=
  ⟨(c1_aggregator_partial_failure.1 _).1,
   c1_aggregator_partial_failure.2.2.2.1 Unit _ () "parse exception" rfl⟩

/-- **C2 (counterexample).** Two same-date events, one with the
undisclosed-time sentinel `"See Times"` and one with the parsed time
`"1:00 AM"`: the aggregator emits the `1:00 AM` event *first* and the
sentinel event *last* — the sentinel does not sort as the start of day
before parsed times, because `convertTo24Hour "See Times"` is
`"See:undefined"`, which compares greater than any `"HH:MM"` key. -/
theorem c2_sort_counterexample :
    getAllShowtimes
        [Except.ok
          [⟨"a", "F", "Film Forum", "2026-02-17", "See Times", "u", none, none⟩,
           ⟨"b", "G", "Film Forum", "2026-02-17", "1:00 AM", "u", none, none⟩]] =
      [⟨"b", "G", "Film Forum", "2026-02-17", "1:00 AM", "u", none, none⟩,
       ⟨"a", "F", "Film Forum", "2026-02-17", "See Times", "u", none, none⟩] ∧
    convertTo24Hour "See Times" = "See:undefined" := by
  exact ⟨rfl, rfl⟩

/-- **C2 (amended).** The aggregator's output is pairwise sorted by the
comparator (calendar date ascending by `localeCompare`, then the
`convertTo24Hour` keys ascending), the sort is stable (any comparator-
ordered pair of the collected input stays in order), and
`"11:00 PM" / "1:00 AM"` style times order correctly through their 24-hour
keys — but an entry whose time is the sentinel `"See Times"` receives the
key `"See:undefined"` and therefore sorts *after* every event with a
parsed (digit-leading) 24-hour key on the same date, not before. -/
theorem c2_sort_order :
    (∀ results : List (Except String (List Showtime)),
      (getAllShowtimes results).Pairwise sortRel) ∧
    (∀ a b : Showtime, sortRel a b ↔
      (if a.date = b.date
       then strLe (convertTo24Hour a.time) (convertTo24Hour b.time) = true
       else strLt a.date b.date = true)) ∧
    (∀ (results : List (Except String (List Showtime))) (a b : Showtime),
      sortRel a b → List.Sublist [a, b] (collectFulfilled results) →
      List.Sublist [a, b] (getAllShowtimes results)) ∧
    convertTo24Hour "See Times" = "See:undefined" ∧
    (∀ (c : Char) (cs : List Char), c.toNat < 83 →
      strLt (String.mk (c :: cs)) "See:undefined" = true) ∧
    strLt (convertTo24Hour "1:00 AM") (convertTo24Hour "11:00 PM") = true := by
  refine ⟨fun results => List.sorted_insertionSort sortRel _,
    fun a b => ?_, fun results a b hab hsub => ?_, rfl, fun c cs h => ?_, rfl⟩
  · by_cases h : a.date = b.date <;> simp [sortRel, showtimeLE, h]
  · exact List.pair_sublist_insertionSort hab hsub
  · show charListLt (c :: cs) ('S' :: "ee:undefined".data) = true
    simp only [charListLt]
    rw [if_pos]
    exact h

/-- Witness for C2 at concrete inputs: the `"01:00"` key of `"1:00 AM"`
sorts before the sentinel key, and a concretely ordered pair is preserved
by the sort. -/
theorem c2_sort_order_witness :
    strLt "01:00" "See:undefined" = true ∧
    List.Sublist
      [⟨"b", "G", "Film Forum", "2026-02-17", "1:00 AM", "u", none, none⟩,
       ⟨"a", "F", "Film Forum", "2026-02-17", "See Times", "u", none, none⟩]
      (getAllShowtimes
        [Except.ok
          [⟨"b", "G", "Film Forum", "2026-02-17", "1:00 AM", "u", none, none⟩,
           ⟨"a", "F", "Film Forum", "2026-02-17", "See Times", "u", none, none⟩]]) :=
  ⟨c2_sort_order.2.2.2.2.1 '0' "1:00".data (by decide),
   c2_sort_order.2.2.1 _ _ _ (by decide) (List.Sublist.refl _)⟩

theorem char_toNat_ofNat {m : Nat} (h : m < 55296) : (Char.ofNat m).toNat = m := by
  have hv : m.isValidChar := Or.inl h
  rw [Char.ofNat, dif_pos hv]
  simp [Char.ofNatAux, Char.toNat, UInt32.toNat]

theorem char_isUpper_iff (c : Char) :
    c.isUpper = true ↔ 65 ≤ c.toNat ∧ c.toNat ≤ 90 := by
  simp only [Char.isUpper, Bool.and_eq_true, decide_eq_true_eq, ge_iff_le]
  rw [UInt32.le_def, UInt32.le_def, BitVec.le_def, BitVec.le_def]
  have h1 : c.val.toBitVec.toNat = c.toNat := rfl
  have h2 : (65 : UInt32).toBitVec.toNat = 65 := rfl
  have h3 : (90 : UInt32).toBitVec.toNat = 90 := rfl
  omega

theorem char_isLower_iff (c : Char) :
    c.isLower = true ↔ 97 ≤ c.toNat ∧ c.toNat ≤ 122 := by
  simp only [Char.isLower, Bool.and_eq_true, decide_eq_true_eq, ge_iff_le]
  rw [UInt32.le_def, UInt32.le_def, BitVec.le_def, BitVec.le_def]
  have h1 : c.val.toBitVec.toNat = c.toNat := rfl
  have h2 : (97 : UInt32).toBitVec.toNat = 97 := rfl
  have h3 : (122 : UInt32).toBitVec.toNat = 122 := rfl
  omega

theorem char_isDigit_iff (c : Char) :
    c.isDigit = true ↔ 48 ≤ c.toNat ∧ c.toNat ≤ 57 := by
  simp only [Char.isDigit, Bool.and_eq_true, decide_eq_true_eq, ge_iff_le]
  rw [UInt32.le_def, UInt32.le_def, BitVec.le_def, BitVec.le_def]
  have h1 : c.val.toBitVec.toNat = c.toNat := rfl
  have h2 : (48 : UInt32).toBitVec.toNat = 48 := rfl
  have h3 : (57 : UInt32).toBitVec.toNat = 57 := rfl
  omega

theorem char_eq_iff_toNat (c d : Char) : c = d ↔ c.toNat = d.toNat := by
  constructor
  · intro h
    rw [h]
  · intro h
    exact Char.ext (UInt32.toNat.inj h)

theorem isIdChar_iff (c : Char) : isIdChar c = true ↔
    (65 ≤ c.toNat ∧ c.toNat ≤ 90) ∨ (97 ≤ c.toNat ∧ c.toNat ≤ 122) ∨
    (48 ≤ c.toNat ∧ c.toNat ≤ 57) ∨ c.toNat = 45 := by
  simp only [isIdChar, Char.isAlpha, Bool.or_eq_true, char_isUpper_iff,
    char_isLower_iff, char_isDigit_iff, decide_eq_true_eq, char_eq_iff_toNat]
  have h45 : ('-').toNat = 45 := rfl
  rw [h45]
  tauto

theorem char_toLower_toNat (c : Char) :
    c.toLower.toNat =
      if 65 ≤ c.toNat ∧ c.toNat ≤ 90 then c.toNat + 32 else c.toNat := by
  unfold Char.toLower
  by_cases h : 65 ≤ c.toNat ∧ c.toNat ≤ 90
  · rw [if_pos ⟨h.1, h.2⟩, if_pos h]
    exact char_toNat_ofNat (by omega)
  · rw [if_neg (fun hc => h ⟨hc.1, hc.2⟩), if_neg h]

/-- Every character of a sanitized identifier is an ASCII letter, digit or
hyphen, and never an upper-case letter: the id is fully lower-cased and
carries no whitespace or other punctuation. -/
theorem sanitizeId_chars (s : String) :
    ∀ c ∈ (sanitizeId s).data, isIdChar c = true ∧ c.isUpper = false := by
  intro c hc
  have hc' : c ∈ ((collapseWsAux false s.data).filter isIdChar).map Char.toLower := hc
  obtain ⟨c', hmem, rfl⟩ := List.mem_map.mp hc'
  have hid : isIdChar c' = true := (List.mem_filter.mp hmem).2
  rw [isIdChar_iff] at hid
  constructor
  · rw [isIdChar_iff, char_toLower_toNat]
    split
    · omega
    · omega
  · rw [Bool.eq_false_iff, Ne, char_isUpper_iff, char_toLower_toNat]
    split
    · omega
    · omega

/-- **C3 (counterexample).** Two distinct Metrograph films, `"A-B"` and
`"A B"`, showing on the same date and time, receive the *same* identifier:
sanitization maps whitespace to hyphens and strips other punctuation, so
distinct showings can collide, contradicting the claim's
collision-freedom. -/
theorem c3_id_collision_counterexample :
    metrographShowtimeId "A-B" "2026-02-17" "7:00 PM" =
      metrographShowtimeId "A B" "2026-02-17" "7:00 PM" ∧
    ("A-B" : String) ≠ "A B" := by
  exact ⟨rfl, by decide⟩

/-- **C3 (amended).** Each adapter's identifier is the pure, deterministic
sanitization (whitespace runs to `-`, all other non-alphanumeric,
non-hyphen characters stripped, then lower-cased) of the hyphen-joined
theater slug, film, date and display time — except that two templates omit
the time: the BAM adapter's (`` `bam-${film}-${date}` ``) and Film Forum's
detail-page strategy's (`` `filmforum-${film}-${date}` ``, its `"See
Times"` events).  The result contains only lower-case letters, digits and
hyphens, so two runs over unchanged source content yield identical
identifiers; but the sanitization is not injective, so distinct showings
may collide. -/
theorem c3_id_construction :
    (∀ film date time : String,
      metrographShowtimeId film date time =
        sanitizeId ("metrograph-" ++ film ++ "-" ++ date ++ "-" ++ time)) ∧
    (∀ film date : String,
      bamShowtimeId film date = sanitizeId ("bam-" ++ film ++ "-" ++ date)) ∧
    (∀ film date time : String,
      ifcShowtimeId film date time =
        sanitizeId ("ifc-" ++ film ++ "-" ++ date ++ "-" ++ time)) ∧
    (∀ film date time : String,
      lowCinemaShowtimeId film date time =
        sanitizeId ("lowcinema-" ++ film ++ "-" ++ date ++ "-" ++ time)) ∧
    (∀ film date time : String,
      filmForumShowtimeId film date time =
        sanitizeId ("filmforum-" ++ film ++ "-" ++ date ++ "-" ++ time)) ∧
    (∀ film date : String,
      filmForumDetailId film date =
        sanitizeId ("filmforum-" ++ film ++ "-" ++ date)) ∧
    (∀ s : String, ∀ c ∈ (sanitizeId s).data,
      isIdChar c = true ∧ c.isUpper = false) :=
  ⟨fun _ _ _ => rfl, fun _ _ => rfl, fun _ _ _ => rfl, fun _ _ _ => rfl,
   fun _ _ _ => rfl, fun _ _ => rfl, sanitizeId_chars⟩

/-- Witness for C3 at a concrete input: the characters of a concrete
Metrograph id are all lower-case id characters. -/
theorem c3_id_construction_witness :
    ∀ c ∈ (sanitizeId "metrograph-Heat 4K-2026-02-17-7:00 PM").data,
      isIdChar c = true ∧ c.isUpper = false :=
  c3_id_construction.2.2.2.2.2.2 "metrograph-Heat 4K-2026-02-17-7:00 PM"

/-- **C4 (counterexample).** Film Forum's `extractDatesFromText` resolves
`"Dec 15"` seen on Jan 10, 2026 to December 15 of the *same* year 2026
(eleven months ahead — the candidate is in the future, so the roll-forward
rule never fires), not to December 15 of the previous year as the claim's
example requires; rolling *forward* can never produce year `Y − 1`. -/
theorem c4_year_inference_counterexample :
    extractDateResolve ⟨2026, 1, 10⟩ 12 15 none = ⟨2026, 12, 15⟩ ∧
    (⟨2026, 12, 15⟩ : CivilDate) ≠ ⟨2025, 12, 15⟩ := by
  exact ⟨by decide, by decide⟩

/-- **C4 (amended).** For date text with no explicit year, Film Forum's
`extractDatesFromText` assumes the current year and rolls forward one year
exactly when the candidate is more than 30 days in the past — so `"Feb 3"`
at Dec 20 of year Y resolves to Feb 3 of Y+1, but `"Dec 15"` at Jan 10 of
year Y resolves to Dec 15 of Y (not Y−1).  Only IFC's `parseDateHeader`
maps a December date seen in January or February to December of Y−1, by a
dedicated special case; otherwise it applies the same roll-forward rule. -/
theorem c4_year_inference :
    (∀ (today : CivilDate) (month day : Nat),
      (daysFromCivil today.y month day + 30 < today.days →
        extractDateResolve today month day none = ⟨today.y + 1, month, day⟩) ∧
      (¬ daysFromCivil today.y month day + 30 < today.days →
        extractDateResolve today month day none = ⟨today.y, month, day⟩) ∧
      (∀ y, extractDateResolve today month day (some y) = ⟨y, month, day⟩)) ∧
    extractDateResolve ⟨2026, 12, 20⟩ 2 3 none = ⟨2027, 2, 3⟩ ∧
    extractDateResolve ⟨2026, 1, 10⟩ 12 15 none = ⟨2026, 12, 15⟩ ∧
    (∀ (today : CivilDate) (day : Nat), today.m = 1 ∨ today.m = 2 →
      parseDateHeaderResolve today 12 day = ⟨today.y - 1, 12, day⟩) ∧
    parseDateHeaderResolve ⟨2026, 1, 10⟩ 12 15 = ⟨2025, 12, 15⟩ ∧
    parseDateHeaderResolve ⟨2026, 12, 20⟩ 2 3 = ⟨2027, 2, 3⟩ := by
  refine ⟨fun today month day => ⟨fun h => ?_, fun h => ?_, fun y => ?_⟩,
    by decide, by decide, fun today day h => ?_, by decide, by decide⟩
  · simp [extractDateResolve, h]
  · simp [extractDateResolve, h]
  · simp [extractDateResolve]
  · simp [parseDateHeaderResolve, h]

/-- Witness for C4 at concrete inputs: the roll-forward branch, the
keep-year branch, the explicit-year branch, and IFC's December special
case, each discharged at a concrete date. -/
theorem c4_year_inference_witness :
    extractDateResolve ⟨2026, 12, 20⟩ 2 3 none = ⟨2027, 2, 3⟩ ∧
    extractDateResolve ⟨2026, 1, 10⟩ 12 15 none = ⟨2026, 12, 15⟩ ∧
    extractDateResolve ⟨2026, 1, 10⟩ 12 15 (some 2031) = ⟨2031, 12, 15⟩ ∧
    parseDateHeaderResolve ⟨2026, 2, 5⟩ 12 31 = ⟨2025, 12, 31⟩ :=
  ⟨((c4_year_inference.1 ⟨2026, 12, 20⟩ 2 3).1 (by decide)),
   ((c4_year_inference.1 ⟨2026, 1, 10⟩ 12 15).2.1 (by decide)),
   ((c4_year_inference.1 ⟨2026, 1, 10⟩ 12 15).2.2 2031),
   (c4_year_inference.2.2.2.1 ⟨2026, 2, 5⟩ 31 (Or.inr rfl))⟩

/-- **C5 (counterexample).** The range `"Jan 1 – Mar 1"` expanded when
today is Jan 1, 2026 yields 15 dates (today through today + 14 inclusive),
not the claimed "at most 14 dates (today through today+13)": the code's
`twoWeeksOut` bound `today + 14` is itself included by the `d <=
effectiveEnd` loop condition. -/
theorem c5_range_clipping_counterexample :
    (parseDateRangePair (daysFromCivil 2026 1 1) (daysFromCivil 2026 1 1)
      (daysFromCivil 2026 3 1)).length = 15 := by
  decide

/-- **C5 (amended).** Every expanded date range is the inclusive list of
days from the (today-clamped) start to the end clipped at `today + 14`:
every emitted day `d` satisfies `today ≤ d ≤ today + 14`, the list never
has more than 15 entries, an unclipped in-horizon range expands to every
calendar day inclusive, and the `"Jan 1 – Mar 1"` example at today = Jan 1
yields exactly 15 dates (today through today + 14). -/
theorem c5_range_expansion :
    (∀ today start e : Nat, ∀ d ∈ parseDateRangePair today start e,
      today ≤ d ∧ d ≤ today + 14) ∧
    (∀ today start e : Nat, (parseDateRangePair today start e).length ≤ 15) ∧
    (∀ today start e : Nat, today ≤ start → e ≤ today + 14 →
      parseDateRangePair today start e =
        (List.range (e + 1 - start)).map (fun i => start + i)) ∧
    (parseDateRangePair (daysFromCivil 2026 1 1) (daysFromCivil 2026 1 1)
      (daysFromCivil 2026 3 1)).length = 15 := by
  refine ⟨fun today start e d hd => ?_, fun today start e => ?_,
    fun today start e h₁ h₂ => ?_, by decide⟩
  · simp only [parseDateRangePair, fillDateRange, List.mem_map,
      List.mem_range] at hd
    obtain ⟨i, hi, rfl⟩ := hd
    have h1 : today ≤ max start today := Nat.le_max_right _ _
    have h2 : min e (today + 14) ≤ today + 14 := Nat.min_le_right _ _
    omega
  · simp only [parseDateRangePair, fillDateRange, List.length_map,
      List.length_range]
    have h1 : today ≤ max start today := Nat.le_max_right _ _
    have h2 : min e (today + 14) ≤ today + 14 := Nat.min_le_right _ _
    omega
  · simp only [parseDateRangePair, fillDateRange,
      Nat.max_eq_left h₁, Nat.min_eq_left h₂]

/-- Witness for C5 at concrete inputs: membership bounds and inclusive
expansion for a small concrete range. -/
theorem c5_range_expansion_witness :
    (100 ≤ 102 ∧ 102 ≤ 100 + 14) ∧
    parseDateRangePair 100 100 103 =
      (List.range (103 + 1 - 100)).map (fun i => 100 + i) :=
  ⟨c5_range_expansion.1 100 100 103 102 (by decide),
   c5_range_expansion.2.2.1 100 100 103 (by decide) (by decide)⟩

/-- **C6 (counterexample).** A bare time `"2:30"` (hour 2, no AM/PM
marker) is *rejected* by the bare-time branch of `extractTimesFromText`
(`if (h < 9 || h > 23) continue`), not resolved to `"2:30 PM"` as the
claim's "hours 1–8 are PM" rule requires; the same branch does accept the
24-hour form `"14:30"`, which it renders as `"2:30 PM"`. -/
theorem c6_bare_time_counterexample :
    resolveBareTime 2 "30" = none ∧
    resolveBareTime 14 "30" = some "2:30 PM" := by
  exact ⟨rfl, rfl⟩

/-- **C6 (amended).** For a time with no AM/PM marker: bare hours 9–11
resolve to AM, bare hours 12–23 resolve to PM (12 displayed as 12, 13–23
displayed as the hour minus 12), and every hour outside 9–23 — including
the hours 1–8 and 0 — is rejected and yields no time. -/
theorem c6_bare_time_inference :
    (∀ (h : Nat) (min : String), 9 ≤ h → h ≤ 11 →
      resolveBareTime h min = some (Nat.repr h ++ ":" ++ min ++ " " ++ "AM")) ∧
    (∀ min : String,
      resolveBareTime 12 min = some ("12" ++ ":" ++ min ++ " " ++ "PM")) ∧
    (∀ (h : Nat) (min : String), 13 ≤ h → h ≤ 23 →
      resolveBareTime h min =
        some (Nat.repr (h - 12) ++ ":" ++ min ++ " " ++ "PM")) ∧
    (∀ (h : Nat) (min : String), h < 9 ∨ 23 < h →
      resolveBareTime h min = none) := by
  refine ⟨fun h min h9 h11 => ?_, fun min => ?_, fun h min h13 h23 => ?_,
    fun h min hout => ?_⟩
  · rw [resolveBareTime, if_neg (by omega)]
    rw [convertTo12Hour]
    simp only [show ¬ h ≥ 12 by omega, if_false, show h ≠ 0 by omega,
      if_false, show ¬ h > 12 by omega, if_false]
  · rfl
  · rw [resolveBareTime, if_neg (by omega)]
    rw [convertTo12Hour]
    simp only [show h ≥ 12 by omega, if_true, show h ≠ 0 by omega,
      if_false, show h > 12 by omega, if_true]
  · rw [resolveBareTime, if_pos hout]

/-- Witness for C6 at concrete hours: 10 → AM, 19 → 7 PM, 2 → rejected. -/
theorem c6_bare_time_inference_witness :
    resolveBareTime 10 "15" = some (Nat.repr 10 ++ ":" ++ "15" ++ " " ++ "AM") ∧
    resolveBareTime 19 "00" = some (Nat.repr (19 - 12) ++ ":" ++ "00" ++ " " ++ "PM") ∧
    resolveBareTime 2 "30" = none :=
  ⟨c6_bare_time_inference.1 10 "15" (by decide) (by decide),
   c6_bare_time_inference.2.2.1 19 "00" (by decide) (by decide),
   c6_bare_time_inference.2.2.2 2 "30" (Or.inl (by decide))⟩

/-- **C7 (counterexample).** The Metrograph adapter applies no horizon
filter: with today = Jan 10, 2026, a film card whose showtimes container
holds the date header `"Dec 15"` and one time link `"7:00pm"` emits an
event dated `2026-12-15` — 339 days out, far beyond today + 14 — so the
"every emitted event lies within today .. today+14" invariant fails for
every adapter. -/
theorem c7_horizon_counterexample :
    (metrographEventsAux ⟨2026, 1, 10⟩ "Heat" "https://metrograph.com/film/heat"
        none none
        [.dateHeader "Dec" 15, .filmDay [("7:00", "pm")]]).map Showtime.date =
      ["2026-12-15"] ∧
    daysFromCivil 2026 1 10 + 14 < daysFromCivil 2026 12 15 := by
  exact ⟨rfl, by decide⟩

/-- **C7 (amended).** The BAM adapter does enforce the horizon: its date
filter keeps exactly the days `d` with `today ≤ d ≤ today + 14`, so every
BAM event lies in the bounded near-future window; the Metrograph adapter
(and the other non-filtering adapters) can emit events outside it. -/
theorem c7_bam_horizon :
    ∀ (today : Nat) (dates : List Nat), ∀ d ∈ bamKeptDates today dates,
      today ≤ d ∧ d ≤ today + 14 := by
  intro today dates d hd
  have h := (List.mem_filter.mp hd).2
  simp only [Bool.not_eq_true', Bool.or_eq_false_iff, decide_eq_false_iff_not] at h
  omega

/-- Witness for C7 at a concrete input: a kept BAM date is inside the
horizon. -/
theorem c7_bam_horizon_witness : 40 ≤ 47 ∧ 47 ≤ 40 + 14 :=
  c7_bam_horizon 40 [20, 47, 99] 47 (by decide)

/-- **C8 (counterexample).** The claim says a `director` preference
matches iff its value is a substring of the *concatenation* of film title
and synopsis.  For the event with film `"AB"` and synopsis `"CD"`, the
value `"bc"` is a substring of the lower-cased concatenation `"abcd"`, yet
`matchShowtime` returns nothing: the code checks the *space-joined* string
`"ab cd"`, in which `"bc"` does not occur. -/
theorem c8_matcher_counterexample :
    matchShowtime ⟨"i", "AB", "Metrograph", "2026-02-17", "7:00 PM", "u",
        none, some "CD"⟩ [⟨.director, "bc"⟩] = [] ∧
    jsIncludes (jsToLower ("AB" ++ "CD")) (jsToLower "bc") = true := by
  exact ⟨rfl, rfl⟩

/-- **C8 (amended).** `matchShowtime` returns exactly the preferences that
match: a `film` preference iff its value is a case-insensitive substring
of the film title; a `director` preference iff its value is a
case-insensitive substring of the film title and synopsis *joined by a
single space* (`` `${filmLower} ${descLower}` ``, an absent synopsis
contributing the empty string); an `actor` preference iff its value is a
case-insensitive substring of the synopsis only. -/
theorem c8_matcher_rules :
    ∀ (st : Showtime) (prefs : List Preference) (p : Preference),
      p ∈ matchShowtime st prefs ↔
        p ∈ prefs ∧
        (match p.type with
         | .film => jsIncludes (jsToLower st.film) (jsToLower p.value)
         | .director =>
           jsIncludes (jsToLower st.film ++ " " ++ jsToLower (st.description.getD ""))
             (jsToLower p.value)
         | .actor =>
           jsIncludes (jsToLower (st.description.getD "")) (jsToLower p.value)) =
          true := by
  intro st prefs p
  simp only [matchShowtime, List.mem_filter]

/-- **C9 (counterexample).** An actor preference with the *empty* value is
returned for an event whose synopsis is absent: `"".includes("")` is true
in JavaScript, so the claim "an event without a synopsis never matches any
actor preference" fails for the empty-valued preference. -/
theorem c9_actor_empty_counterexample :
    matchShowtime ⟨"i", "X", "Metrograph", "2026-02-17", "7:00 PM", "u",
        none, none⟩ [⟨.actor, ""⟩] = [⟨.actor, ""⟩] := by
  exact rfl

/-- **C9 (amended).** For every event whose synopsis is absent or empty,
`matchShowtime` returns no actor preference with a *non-empty* value: the
lower-cased synopsis is the empty string, and a non-empty needle is never
a substring of it.  (The empty-valued actor preference is the sole
exception, since the empty string is a substring of everything.) -/
theorem c9_no_actor_match_without_synopsis :
    ∀ (st : Showtime) (prefs : List Preference) (p : Preference),
      (st.description = none ∨ st.description = some "") →
      p.type = .actor → p.value ≠ "" →
      p ∉ matchShowtime st prefs := by
  intro st prefs p hdesc htype hval hmem
  have h := (List.mem_filter.mp hmem).2
  have hd : st.description.getD "" = "" := by
    rcases hdesc with h' | h' <;> simp [h']
  rw [htype] at h
  rw [hd] at h
  have hempty : (jsToLower p.value).data.isEmpty = true := h
  rw [List.isEmpty_iff] at hempty
  apply hval
  have : p.value.data.map Char.toLower = [] := hempty
  have hnil : p.value.data = [] := List.map_eq_nil_iff.mp this
  calc p.value = String.mk p.value.data := rfl
    _ = String.mk [] := by rw [hnil]
    _ = "" := rfl

/-- Witness for C9 at a concrete input: a non-empty actor preference is
not matched by an event with no synopsis. -/
theorem c9_no_actor_match_without_synopsis_witness :
    (⟨.actor, "scorsese"⟩ : Preference) ∉
      matchShowtime ⟨"i", "Taxi Driver", "Metrograph", "2026-02-17",
        "7:00 PM", "u", none, none⟩ [⟨.actor, "scorsese"⟩] :=
  c9_no_actor_match_without_synopsis _ _ _ (Or.inl rfl) rfl (by decide)

/-- **C10.** Whenever the Metrograph or Low Cinema adapter extracted a
(non-empty) director name, the event's description field begins with that
director's name: the director is prepended, joined by `" — "` to the
synopsis when one is present, so director preferences can match these
venues' events through the description. -/
theorem c10_director_prefixed_description :
    ∀ (director : String) (description : Option String), director ≠ "" →
      (∃ rest, metrographDescription (some director) description =
        some (director ++ rest)) ∧
      (∃ rest, lowCinemaDescription (some director) description =
        some (director ++ rest)) ∧
      metrographDescription (some director) (some "") =
        some (director ++ "") ∧
      (∀ synopsis : String, synopsis ≠ "" →
        metrographDescription (some director) (some synopsis) =
          some (director ++ (" — " ++ synopsis))) := by
  intro director description hdir
  have ht : jsTruthy (some director) = true := by
    unfold jsTruthy
    split
    · rename_i heq
      cases heq
    · rename_i heq
      injection heq with heq'
      exact absurd heq' hdir
    · rfl
  refine ⟨?_, ?_, ?_, ?_⟩
  · rw [metrographDescription, if_pos ht]
    exact ⟨_, rfl⟩
  · rw [lowCinemaDescription, if_pos ht]
    exact ⟨_, rfl⟩
  · rw [metrographDescription, if_pos ht]
    rfl
  · intro synopsis hsyn
    have hts : jsTruthy (some synopsis) = true := by
      unfold jsTruthy
      split
      · rename_i heq
        cases heq
      · rename_i heq
        injection heq with heq'
        exact absurd heq' hsyn
      · rfl
    rw [metrographDescription, if_pos ht, if_pos hts]
    rfl

/-- Witness for C10 at a concrete input: a concrete director and synopsis
produce a description beginning with the director's name. -/
theorem c10_director_prefixed_description_witness :
    ∃ rest, metrographDescription (some "Claire Denis") (some "A drama.") =
      some ("Claire Denis" ++ rest) :=
  (c10_director_prefixed_description "Claire Denis" (some "A drama.")
    (by decide)).1
